import Mathlib

/-!
Verification of the log-collection engine of `dprs`
(`src/docker_log_watcher.rs`): the `DockerLogWatcher` (spec: Collector)
and `DockerLogManager` (spec: Registry).

The sequential data operations (buffer append with eviction, stop,
get_logs, stop_all, discovery) are embedded as pure functions; the
concurrent behaviour of the three background workers (stdout reader,
stderr reader, supervisor) together with `stop()` is embedded as an
explicit interleaving transition system further below.
-/

namespace Dprs

/-- Model of the eviction loop run after `logs.push_back(line)`:
`while logs.len() > max_logs { logs.pop_front(); }`.
The `VecDeque` is modelled as a `List` with the front (oldest line)
at the head. -/
def trimLoop (maxLogs : Nat) : List String → List String
  | [] => []
  | x :: xs => if (x :: xs).length > maxLogs then trimLoop maxLogs xs else x :: xs

/-- Model of one buffer insertion as performed (under the logs mutex) by a
reader worker: `logs.push_back(line); while logs.len() > max_logs
{ logs.pop_front(); }`. -/
def appendLog (maxLogs : Nat) (logs : List String) (line : String) : List String :=
  trimLoop maxLogs (logs ++ [line])

/-- The eviction loop drops exactly the oldest `logs.length - maxLogs` lines. -/
theorem trimLoop_eq_drop (maxLogs : Nat) (logs : List String) :
    trimLoop maxLogs logs = logs.drop (logs.length - maxLogs) := by
  induction logs with
  | nil => simp [trimLoop]
  | cons x xs ih =>
    rw [trimLoop]
    by_cases h : (x :: xs).length > maxLogs
    · rw [if_pos h, ih]
      have hlen : (x :: xs).length - maxLogs = (xs.length - maxLogs) + 1 := by
        simp only [List.length_cons] at h ⊢
        omega
      rw [hlen, List.drop_succ_cons]
    · rw [if_neg h]
      have hlen : (x :: xs).length - maxLogs = 0 := by
        simp only [List.length_cons] at h ⊢
        omega
      rw [hlen, List.drop_zero]

theorem appendLog_eq_drop (maxLogs : Nat) (logs : List String) (line : String) :
    appendLog maxLogs logs line = (logs ++ [line]).drop (logs.length + 1 - maxLogs) := by
  rw [appendLog, trimLoop_eq_drop]
  simp

theorem length_appendLog (maxLogs : Nat) (logs : List String) (line : String) :
    (appendLog maxLogs logs line).length ≤ maxLogs := by
  rw [appendLog_eq_drop]
  simp only [List.length_drop, List.length_append, List.length_cons, List.length_nil]
  omega

/-- Repeated insertion keeps exactly the suffix that fits: folding
`appendLog` over any sequence of lines from an accumulator that is
within capacity retains the last `maxLogs` lines of the whole stream. -/
theorem foldl_appendLog_eq_drop (maxLogs : Nat) (lines : List String) :
    ∀ acc : List String, acc.length ≤ maxLogs →
      List.foldl (appendLog maxLogs) acc lines
        = (acc ++ lines).drop (acc.length + lines.length - maxLogs) := by
  induction lines with
  | nil =>
    intro acc hacc
    simp only [List.foldl_nil, List.append_nil, List.length_nil, Nat.add_zero]
    have : acc.length - maxLogs = 0 := by omega
    rw [this, List.drop_zero]
  | cons x xs ih =>
    intro acc hacc
    rw [List.foldl_cons]
    have hlen : (appendLog maxLogs acc x).length ≤ maxLogs := length_appendLog _ _ _
    rw [ih _ hlen]
    rw [appendLog_eq_drop]
    have hle : acc.length + 1 - maxLogs ≤ (acc ++ [x]).length := by
      simp only [List.length_append, List.length_cons, List.length_nil]
      omega
    rw [← List.drop_append_of_le_length hle, List.drop_drop]
    have harith :
        (acc.length + 1 - maxLogs)
          + (((acc ++ [x]).drop (acc.length + 1 - maxLogs)).length + xs.length - maxLogs)
        = acc.length + (x :: xs).length - maxLogs := by
      simp only [List.length_drop, List.length_append, List.length_cons, List.length_nil]
      omega
    rw [harith]
    congr 1
    simp

/-- State of a `DockerLogWatcher` (spec: Collector). The `VecDeque<String>`
behind the mutex is a `List String` (head = oldest line); the
`Option<JoinHandle<()>>` is `Option Unit` (only presence matters to the
control flow); `running` is the mutex-guarded `bool` shared with the
workers. -/
structure DockerLogWatcher where
  container_name : String
  logs : List String
  max_logs : Nat
  handle : Option Unit
  running : Bool
deriving DecidableEq, Repr

namespace DockerLogWatcher

/-- `DockerLogWatcher::new`: empty buffer, no handle, not running. -/
def new (container_name : String) (max_logs : Nat) : DockerLogWatcher :=
  { container_name := container_name
    logs := []
    max_logs := max_logs
    handle := none
    running := false }

/-- Effect on the watcher state of one reader-worker insertion
(`push_back` followed by the eviction loop), as serialized by the logs
mutex. -/
def appendLine (w : DockerLogWatcher) (line : String) : DockerLogWatcher :=
  { w with logs := appendLog w.max_logs w.logs line }

/-- `DockerLogWatcher::get_logs`: snapshot of the buffer, front (oldest)
first, mirroring `logs.iter().cloned().collect()`. -/
def get_logs (w : DockerLogWatcher) : List String :=
  w.logs

/-- `DockerLogWatcher::stop`: `if let Some(handle) = self.handle.take()`
then set `running = false` and join; otherwise do nothing. -/
def stop (w : DockerLogWatcher) : DockerLogWatcher :=
  match w.handle with
  | some _ => { w with handle := none, running := false }
  | none => w

/-- `DockerLogWatcher::start` as seen by its caller: it sets
`running = true`, stores the spawned thread handle, and returns `Ok(())`
unconditionally (the `Result` is `none` here for `Ok`; no error value is
ever produced by the source). -/
def start (w : DockerLogWatcher) : DockerLogWatcher × Option String :=
  ({ w with running := true, handle := some () }, none)

end DockerLogWatcher

/-- Outcome of `Command::new("docker").spawn()` inside the background
thread: either the subprocess launches, or spawning fails (for example,
the binary is missing). -/
inductive SpawnOutcome where
  | ok
  | failed
deriving DecidableEq, Repr

/-- Fate of the background thread spawned by `start`. -/
inductive ThreadFate where
  | panicked (msg : String)
  | proceeds
deriving DecidableEq, Repr

/-- What the background thread body does with the spawn outcome:
`.spawn().expect("Failed to start docker logs command")` panics the
thread when spawning fails; otherwise it proceeds to spawn the reader
and supervisor workers. -/
def watcherThreadFate (spawn : SpawnOutcome) : ThreadFate :=
  match spawn with
  | .failed => .panicked "Failed to start docker logs command"
  | .ok => .proceeds

theorem foldl_appendLine_logs (lines : List String) :
    ∀ w : DockerLogWatcher,
      (List.foldl DockerLogWatcher.appendLine w lines).logs
          = List.foldl (appendLog w.max_logs) w.logs lines
      ∧ (List.foldl DockerLogWatcher.appendLine w lines).max_logs = w.max_logs := by
  induction lines with
  | nil => intro w; exact ⟨rfl, rfl⟩
  | cons x xs ih =>
    intro w
    rw [List.foldl_cons, List.foldl_cons]
    exact ih (w.appendLine x)

/-- C1: with capacity `C` strictly below the number `N` of appended
lines, `get_logs` returns exactly the last `C` appended lines in
append order (`lines.drop (N - C)`). -/
theorem getLines_last_capacity (C : Nat) (lines : List String) (name : String)
    (h : C < lines.length) :
    DockerLogWatcher.get_logs
        (List.foldl DockerLogWatcher.appendLine (DockerLogWatcher.new name C) lines)
      = lines.drop (lines.length - C) := by
  rw [DockerLogWatcher.get_logs, (foldl_appendLine_logs lines _).1]
  simp only [DockerLogWatcher.new]
  have h0 : ([] : List String).length ≤ C := by simp
  rw [foldl_appendLog_eq_drop C lines [] h0]
  simp

/-- C1 witness: capacity 2, lines "a", "b", "c" — `get_logs` returns
the last two lines. -/
theorem getLines_last_capacity_witness :
    DockerLogWatcher.get_logs
        (List.foldl DockerLogWatcher.appendLine (DockerLogWatcher.new "w" 2)
          ["a", "b", "c"])
      = List.drop ((["a", "b", "c"] : List String).length - 2) ["a", "b", "c"] :=
  getLines_last_capacity 2 ["a", "b", "c"] "w" (by decide)

/-- C4: the buffer never holds more than `max_lines` lines — each
insertion leaves at most `max` lines, any sequence of insertions from a
fresh watcher leaves `get_logs` with at most `max` lines, and an
insertion into a full nonempty buffer evicts exactly the oldest line
(FIFO). -/
theorem buffer_bounded_and_fifo (max : Nat) :
    (∀ (logs : List String) (line : String),
        (appendLog max logs line).length ≤ max)
    ∧ (∀ (name : String) (lines : List String),
        (DockerLogWatcher.get_logs
            (List.foldl DockerLogWatcher.appendLine (DockerLogWatcher.new name max)
              lines)).length ≤ max)
    ∧ (∀ (logs : List String) (line : String),
        logs.length = max → 0 < max →
          appendLog max logs line = logs.tail ++ [line]) := by
  refine ⟨fun logs line => length_appendLog max logs line, ?_, ?_⟩
  · intro name lines
    rw [DockerLogWatcher.get_logs, (foldl_appendLine_logs lines _).1]
    have h0 : (DockerLogWatcher.new name max).logs.length ≤ (DockerLogWatcher.new name max).max_logs := by
      simp [DockerLogWatcher.new]
    have := foldl_appendLog_eq_drop (DockerLogWatcher.new name max).max_logs lines
      (DockerLogWatcher.new name max).logs h0
    simp only [DockerLogWatcher.new] at this ⊢
    rw [this]
    simp only [List.length_drop, List.nil_append, List.length_nil, Nat.zero_add]
    omega
  · intro logs line hfull hpos
    rw [appendLog_eq_drop, hfull]
    have h1 : max + 1 - max = 1 := by omega
    rw [h1]
    rcases logs with _ | ⟨y, ys⟩
    · simp at hfull; omega
    · simp

/-- C4 witness: with capacity 2, an insertion is bounded, a fresh
watcher fed three lines holds at most two, and inserting into the full
buffer ["a", "b"] evicts "a". -/
theorem buffer_bounded_and_fifo_witness :
    (appendLog 2 ["a", "b"] "c").length ≤ 2
    ∧ (DockerLogWatcher.get_logs
        (List.foldl DockerLogWatcher.appendLine (DockerLogWatcher.new "w" 2)
          ["a", "b", "c"])).length ≤ 2
    ∧ appendLog 2 ["a", "b"] "c" = (["a", "b"] : List String).tail ++ ["c"] :=
  ⟨(buffer_bounded_and_fifo 2).1 ["a", "b"] "c",
   (buffer_bounded_and_fifo 2).2.1 "w" ["a", "b", "c"],
   (buffer_bounded_and_fifo 2).2.2 ["a", "b"] "c" (by decide) (by decide)⟩

/-- C8: `stop` is idempotent — stopping twice equals stopping once —
and `stop` on a watcher with no stored handle (never started, or
already stopped) changes nothing. -/
theorem stop_idempotent (w : DockerLogWatcher) :
    DockerLogWatcher.stop (DockerLogWatcher.stop w) = DockerLogWatcher.stop w
    ∧ (w.handle = none → DockerLogWatcher.stop w = w) := by
  constructor
  · rcases hw : w.handle with _ | u
    · simp [DockerLogWatcher.stop, hw]
    · simp [DockerLogWatcher.stop, hw]
  · intro hnone
    simp [DockerLogWatcher.stop, hnone]

/-- C8 witness: stopping a started watcher twice equals stopping it
once, and stopping a fresh (never started) watcher is a no-op. -/
theorem stop_idempotent_witness :
    DockerLogWatcher.stop
        (DockerLogWatcher.stop (DockerLogWatcher.start (DockerLogWatcher.new "w" 5)).1)
      = DockerLogWatcher.stop (DockerLogWatcher.start (DockerLogWatcher.new "w" 5)).1
    ∧ DockerLogWatcher.stop (DockerLogWatcher.new "w" 5) = DockerLogWatcher.new "w" 5 :=
  ⟨(stop_idempotent (DockerLogWatcher.start (DockerLogWatcher.new "w" 5)).1).1,
   (stop_idempotent (DockerLogWatcher.new "w" 5)).2 rfl⟩

/-- C10: a watcher constructed with `max_lines = 0` always has an empty
buffer: it starts empty and stays empty after any sequence of
insertions. -/
theorem zero_capacity_always_empty (name : String) (lines : List String) :
    DockerLogWatcher.get_logs
        (List.foldl DockerLogWatcher.appendLine (DockerLogWatcher.new name 0) lines)
      = []
    ∧ DockerLogWatcher.get_logs (DockerLogWatcher.new name 0) = [] := by
  constructor
  · rw [DockerLogWatcher.get_logs, (foldl_appendLine_logs lines _).1]
    have h0 : ([] : List String).length ≤ 0 := by simp
    have := foldl_appendLog_eq_drop 0 lines [] h0
    simp only [DockerLogWatcher.new] at this ⊢
    rw [this]
    simp
  · rfl

/-- Result of the discovery command `docker ps` as observed by
`start_watching_all_containers`: the `Command::output()` call may fail,
the command may run but exit unsuccessfully, or it succeeds with the
stdout already split into lines. -/
inductive PsResult where
  | execError (msg : String)
  | cmdFailed (stderrText : String)
  | ok (outLines : List String)
deriving DecidableEq, Repr

/- The `DockerLogManager` (spec: Registry) holds `watchers: Vec<DockerLogWatcher>`,
modelled as a `List DockerLogWatcher`. -/
namespace DockerLogManager

/-- `DockerLogManager::stop_all`: `for watcher in &mut self.watchers {
watcher.stop(); }` — stops each watcher in place; the vector itself is
not modified. -/
def stop_all (watchers : List DockerLogWatcher) : List DockerLogWatcher :=
  watchers.map DockerLogWatcher.stop

/-- `DockerLogManager::watcher_count`. -/
def watcher_count (watchers : List DockerLogWatcher) : Nat :=
  watchers.length

/-- `DockerLogManager::get_watcher`. -/
def get_watcher (watchers : List DockerLogWatcher) (index : Nat) :
    Option DockerLogWatcher :=
  watchers[index]?

/-- `DockerLogManager::start_watching_container`: builds a watcher with
capacity 1000, starts it (which never fails), and pushes it. -/
def start_watching_container (watchers : List DockerLogWatcher)
    (container_name : String) : List DockerLogWatcher × Option String :=
  let started := (DockerLogWatcher.start (DockerLogWatcher.new container_name 1000)).1
  (watchers ++ [started], none)

/-- `DockerLogManager::start_watching_all_containers`: on a discovery
failure (either `output()` erroring or a non-success exit status) the
function returns the error before touching `self.watchers`; on success
it stops all current watchers, clears the vector, and pushes one
started watcher per nonempty trimmed line of the command output. -/
def start_watching_all_containers (watchers : List DockerLogWatcher)
    (ps : PsResult) : List DockerLogWatcher × Option String :=
  match ps with
  | .execError msg =>
      (watchers, some ("Failed to execute docker command: " ++ msg))
  | .cmdFailed stderrText =>
      (watchers, some ("Docker command failed: " ++ stderrText))
  | .ok outLines =>
      (outLines.foldl
        (fun acc line =>
          let container_name := line.trim
          if container_name.isEmpty then acc
          else (start_watching_container acc container_name).1)
        [], none)

/-- `impl Drop for DockerLogManager`: dropping the manager calls
`stop_all`. -/
def dropManager (watchers : List DockerLogWatcher) : List DockerLogWatcher :=
  stop_all watchers

/-- `DockerLogManager::refresh` delegates to
`start_watching_all_containers`. -/
def refresh (watchers : List DockerLogWatcher) (ps : PsResult) :
    List DockerLogWatcher × Option String :=
  start_watching_all_containers watchers ps

end DockerLogManager

/-- C5, against the claim: on a spawn failure (docker binary missing)
`start` still returns `Ok` (no error), leaves `running = true` (not
false), the background thread panics on its `expect`, and `get_logs`
returns the empty sequence. -/
theorem start_launch_failure_behavior :
    (DockerLogWatcher.start (DockerLogWatcher.new "missing-runtime" 100)).2 = none
    ∧ (DockerLogWatcher.start (DockerLogWatcher.new "missing-runtime" 100)).1.running = true
    ∧ DockerLogWatcher.get_logs
        (DockerLogWatcher.start (DockerLogWatcher.new "missing-runtime" 100)).1 = []
    ∧ watcherThreadFate SpawnOutcome.failed
        = ThreadFate.panicked "Failed to start docker logs command" :=
  ⟨rfl, rfl, rfl, rfl⟩

/-- C6 counterexample: a manager holding one (started) watcher whose
discovery query fails keeps its previous watcher set — it is not left
empty as the claim states. -/
theorem discovery_failure_keeps_prior_watchers :
    (DockerLogManager.start_watching_all_containers
        [(DockerLogWatcher.start (DockerLogWatcher.new "c1" 1000)).1]
        (PsResult.execError "no docker")).1
      = [(DockerLogWatcher.start (DockerLogWatcher.new "c1" 1000)).1]
    ∧ (DockerLogManager.start_watching_all_containers
        [(DockerLogWatcher.start (DockerLogWatcher.new "c1" 1000)).1]
        (PsResult.execError "no docker")).1 ≠ []
    ∧ (DockerLogManager.start_watching_all_containers
        [(DockerLogWatcher.start (DockerLogWatcher.new "c1" 1000)).1]
        (PsResult.execError "no docker")).2.isSome = true := by
  refine ⟨rfl, ?_, rfl⟩
  decide

/-- C6 amended: when the discovery query fails (either the command
cannot be executed or it exits unsuccessfully),
`start_watching_all_containers` reports the error and leaves the
watcher set exactly as it was — the prior set is preserved unchanged,
not cleared and not partially populated. -/
theorem discovery_failure_leaves_set_unchanged
    (watchers : List DockerLogWatcher) (msg stderrText : String) :
    DockerLogManager.start_watching_all_containers watchers (PsResult.execError msg)
        = (watchers, some ("Failed to execute docker command: " ++ msg))
    ∧ DockerLogManager.start_watching_all_containers watchers (PsResult.cmdFailed stderrText)
        = (watchers, some ("Docker command failed: " ++ stderrText)) :=
  ⟨rfl, rfl⟩

/-- C7 counterexample: `stop_all` on a manager holding one started
watcher leaves `watcher_count` at 1, not 0 — the collection is not
cleared. -/
theorem stop_all_does_not_clear :
    DockerLogManager.watcher_count
        (DockerLogManager.stop_all
          [(DockerLogWatcher.start (DockerLogWatcher.new "c1" 1000)).1]) = 1
    ∧ DockerLogManager.watcher_count
        (DockerLogManager.stop_all
          [(DockerLogWatcher.start (DockerLogWatcher.new "c1" 1000)).1]) ≠ 0 := by
  exact ⟨rfl, by decide⟩

/-- C7 amended: `stop_all` stops every held watcher (afterwards none
holds a join handle and every previously started one has
`running = false`) but leaves the collection itself intact, so
`watcher_count` is unchanged; it is a no-op on an empty manager; and
dropping the manager runs exactly `stop_all`. -/
theorem stop_all_stops_but_keeps_collection (watchers : List DockerLogWatcher) :
    DockerLogManager.watcher_count (DockerLogManager.stop_all watchers)
        = DockerLogManager.watcher_count watchers
    ∧ (∀ w ∈ DockerLogManager.stop_all watchers, w.handle = none)
    ∧ (∀ w ∈ watchers, w.handle ≠ none → (DockerLogWatcher.stop w).running = false)
    ∧ DockerLogManager.stop_all ([] : List DockerLogWatcher) = []
    ∧ DockerLogManager.dropManager watchers = DockerLogManager.stop_all watchers := by
  refine ⟨by simp [DockerLogManager.stop_all, DockerLogManager.watcher_count], ?_, ?_, rfl, rfl⟩
  · intro w hw
    rw [DockerLogManager.stop_all] at hw
    rcases List.mem_map.1 hw with ⟨v, _, hv⟩
    rcases hvh : v.handle with _ | u
    · rw [← hv, DockerLogWatcher.stop]
      rw [hvh]
      exact hvh
    · rw [← hv, DockerLogWatcher.stop]
      rw [hvh]
  · intro w _ hsome
    rcases hwh : w.handle with _ | u
    · exact absurd hwh hsome
    · rw [DockerLogWatcher.stop, hwh]

/-- C7 amended witness: on a one-watcher manager the count is
preserved, the stopped watcher holds no handle and is not running, the
empty manager is untouched, and drop equals `stop_all`. -/
theorem stop_all_stops_but_keeps_collection_witness :
    DockerLogManager.watcher_count
        (DockerLogManager.stop_all
          [(DockerLogWatcher.start (DockerLogWatcher.new "c1" 1000)).1])
      = DockerLogManager.watcher_count
          [(DockerLogWatcher.start (DockerLogWatcher.new "c1" 1000)).1]
    ∧ (DockerLogWatcher.stop
        (DockerLogWatcher.start (DockerLogWatcher.new "c1" 1000)).1).handle = none
    ∧ (DockerLogWatcher.stop
        (DockerLogWatcher.start (DockerLogWatcher.new "c1" 1000)).1).running = false
    ∧ DockerLogManager.stop_all ([] : List DockerLogWatcher) = []
    ∧ DockerLogManager.dropManager
          [(DockerLogWatcher.start (DockerLogWatcher.new "c1" 1000)).1]
        = DockerLogManager.stop_all
            [(DockerLogWatcher.start (DockerLogWatcher.new "c1" 1000)).1] := by
  have h := stop_all_stops_but_keeps_collection
    [(DockerLogWatcher.start (DockerLogWatcher.new "c1" 1000)).1]
  refine ⟨h.1, ?_, ?_, h.2.2.2.1, h.2.2.2.2⟩
  · exact h.2.1 _ (by decide)
  · exact h.2.2.1 _ (by decide) (by decide)

/-!
Interleaving model of one started watcher's concurrent behaviour.

After a successful `start`, four threads interact with shared state:
the two line-reading workers (stdout and stderr), the supervisor loop,
and the caller of `stop`. The outer spawned thread does nothing after
spawning except `stdout_handle.join(); stderr_handle.join()`, so
`stop`'s `handle.join()` completes exactly when both readers have
exited; the `_watcher` (supervisor) handle is dropped without ever
being joined. The model below makes every intermediate point of the
reader loop an explicit program counter, so that any interleaving of
the threads is a sequence of `Act` steps.
-/

/-- One item yielded by `BufReader::lines()`: `Ok(line)` or `Err(e)`
(read or UTF-8 decode error; the error value itself is never consulted
by the code). -/
inductive LineRead where
  | good (line : String)
  | bad
deriving DecidableEq, Repr

/-- Program counter of a reader worker, one position per point of
`for line in reader.lines() { if !*running { break; } if let Ok(line)
= line { push and trim } }`: about to block on the next read; holding
a freshly read item, about to check the flag; about to append a line
that passed both checks; or exited. -/
inductive RPc where
  | recv
  | check (item : LineRead)
  | append (line : String)
  | done
deriving DecidableEq, Repr

/-- State of one reader worker: its tag (`""` for the stdout reader,
`"ERROR: "` for the stderr reader, which appends
`format!("ERROR: {line}")`-style tagged lines), the items its stream
will still yield, and its program counter. -/
structure RState where
  tag : String
  input : List LineRead
  pc : RPc
deriving DecidableEq, Repr

/-- The supervisor loop is either still looping or has exited. -/
inductive SupPc where
  | looping
  | exited
deriving DecidableEq, Repr

/-- Progress of a `stop()` call: not yet invoked; `running` already set
to false but `handle.join()` not yet returned; or returned. -/
inductive StopPc where
  | idle
  | flagged
  | returned
deriving DecidableEq, Repr

/-- Shared state of one started watcher and its threads. -/
structure CState where
  maxLogs : Nat
  running : Bool
  buffer : List String
  r1 : RState
  r2 : RState
  sup : SupPc
  procAlive : Bool
  stopPc : StopPc
deriving DecidableEq, Repr

/-- One step of a reader worker, from the loop in
`DockerLogWatcher::start`: at `recv` it takes the next item from its
stream (or exits at end-of-stream); at `check` it exits if `running`
is false, discards an `Err` item and loops, or moves to `append` for
an `Ok` line; at `append` it pushes the tagged line and runs the
eviction loop. Returns the new reader state and buffer, or `none` if
the worker has already exited. -/
def readerStep (maxLogs : Nat) (running : Bool) (buffer : List String)
    (r : RState) : Option (RState × List String) :=
  match r.pc with
  | .done => none
  | .recv =>
      match r.input with
      | [] => some ({ r with pc := .done }, buffer)
      | item :: rest => some ({ r with pc := .check item, input := rest }, buffer)
  | .check item =>
      if running then
        match item with
        | .good line => some ({ r with pc := .append line }, buffer)
        | .bad => some ({ r with pc := .recv }, buffer)
      else
        some ({ r with pc := .done }, buffer)
  | .append line =>
      some ({ r with pc := .recv }, appendLog maxLogs buffer (r.tag ++ line))

/-- Thread scheduling choices: a step of the stdout reader, of the
stderr reader, of the supervisor loop, or of the `stop` caller
(setting the flag, or completing the join). -/
inductive Act where
  | r1
  | r2
  | sup
  | stopFlag
  | stopJoin
deriving DecidableEq, Repr

/-- One interleaved step of the whole system. The supervisor iteration
is `if !*running { cmd.kill(); break; } sleep(100ms)`; `stopFlag` is
`*running = false` inside `stop`; `stopJoin` is `handle.join()`, which
can complete only when the outer thread has finished its
`stdout_handle.join(); stderr_handle.join()`, that is, only when both
readers have exited. The supervisor is joined by nobody. -/
def step (s : CState) (a : Act) : Option CState :=
  match a with
  | .r1 =>
      match readerStep s.maxLogs s.running s.buffer s.r1 with
      | none => none
      | some (r, b) => some { s with r1 := r, buffer := b }
  | .r2 =>
      match readerStep s.maxLogs s.running s.buffer s.r2 with
      | none => none
      | some (r, b) => some { s with r2 := r, buffer := b }
  | .sup =>
      match s.sup with
      | .exited => none
      | .looping =>
          if s.running then some s
          else some { s with procAlive := false, sup := .exited }
  | .stopFlag =>
      match s.stopPc with
      | .idle => some { s with running := false, stopPc := .flagged }
      | _ => none
  | .stopJoin =>
      match s.stopPc with
      | .flagged =>
          if s.r1.pc = RPc.done then
            if s.r2.pc = RPc.done then some { s with stopPc := .returned }
            else none
          else none
      | _ => none

/-- Run a sequence of scheduling choices from a state; `none` when a
chosen thread has no enabled step there. -/
def runActs (s : CState) : List Act → Option CState
  | [] => some s
  | a :: acts =>
      match step s a with
      | none => none
      | some t => runActs t acts

/-- Once both readers have exited, no step can change the buffer or
revive a reader. -/
theorem step_frozen {s : CState} {a : Act} {t : CState} (h : step s a = some t)
    (h1 : s.r1.pc = RPc.done) (h2 : s.r2.pc = RPc.done) :
    t.buffer = s.buffer ∧ t.r1.pc = RPc.done ∧ t.r2.pc = RPc.done := by
  cases a <;> simp only [step] at h
  case r1 => simp [readerStep, h1] at h
  case r2 => simp [readerStep, h2] at h
  case sup =>
    split at h
    · exact absurd h (by simp)
    · split at h
      · obtain rfl := Option.some.inj h
        exact ⟨rfl, h1, h2⟩
      · rw [Option.some.injEq] at h
        subst h
        exact ⟨rfl, h1, h2⟩
  case stopFlag =>
    split at h
    · rw [Option.some.injEq] at h
      subst h
      exact ⟨rfl, h1, h2⟩
    · exact absurd h (by simp)
  case stopJoin =>
    split at h
    · by_cases hd1 : s.r1.pc = RPc.done
      · by_cases hd2 : s.r2.pc = RPc.done
        · rw [if_pos hd1, if_pos hd2, Option.some.injEq] at h
          subst h
          exact ⟨rfl, h1, h2⟩
        · rw [if_pos hd1, if_neg hd2] at h
          exact absurd h (by simp)
      · rw [if_neg hd1] at h
        exact absurd h (by simp)
    · exact absurd h (by simp)

/-- Coherence: a step preserves the property that a returned `stop`
implies both readers have exited (the join can only complete once the
outer thread has joined both readers). -/
theorem step_coherent {s : CState} {a : Act} {t : CState} (h : step s a = some t)
    (hc : s.stopPc = StopPc.returned → s.r1.pc = RPc.done ∧ s.r2.pc = RPc.done) :
    t.stopPc = StopPc.returned → t.r1.pc = RPc.done ∧ t.r2.pc = RPc.done := by
  intro hret
  by_cases hs : s.stopPc = StopPc.returned
  · obtain ⟨h1, h2⟩ := hc hs
    obtain ⟨_, ht1, ht2⟩ := step_frozen h h1 h2
    exact ⟨ht1, ht2⟩
  · cases a
    all_goals simp only [step] at h
    · split at h
      · exact absurd h (by simp)
      · rw [Option.some.injEq] at h
        subst h
        exact absurd hret hs
    · split at h
      · exact absurd h (by simp)
      · rw [Option.some.injEq] at h
        subst h
        exact absurd hret hs
    · split at h
      · exact absurd h (by simp)
      · split at h
        · obtain rfl := Option.some.inj h
          exact absurd hret hs
        · rw [Option.some.injEq] at h
          subst h
          exact absurd hret hs
    · split at h
      · rw [Option.some.injEq] at h
        subst h
        exact absurd hret (by simp)
      · exact absurd h (by simp)
    · split at h
      · by_cases hd1 : s.r1.pc = RPc.done
        · by_cases hd2 : s.r2.pc = RPc.done
          · rw [if_pos hd1, if_pos hd2, Option.some.injEq] at h
            subst h
            exact ⟨hd1, hd2⟩
          · rw [if_pos hd1, if_neg hd2] at h
            exact absurd h (by simp)
        · rw [if_neg hd1] at h
          exact absurd h (by simp)
      · exact absurd h (by simp)

/-- Multi-step version of `step_coherent`. -/
theorem runActs_coherent {acts : List Act} {s t : CState}
    (h : runActs s acts = some t)
    (hc : s.stopPc = StopPc.returned → s.r1.pc = RPc.done ∧ s.r2.pc = RPc.done) :
    t.stopPc = StopPc.returned → t.r1.pc = RPc.done ∧ t.r2.pc = RPc.done := by
  induction acts generalizing s with
  | nil =>
    rw [runActs] at h
    obtain rfl := Option.some.inj h
    exact hc
  | cons a acts ih =>
    rw [runActs] at h
    split at h
    · exact absurd h (by simp)
    · next u hu => exact ih h (step_coherent hu hc)

/-- Multi-step version of `step_frozen`: from a state where both
readers have exited, any schedule leaves the buffer unchanged. -/
theorem runActs_frozen {acts : List Act} {s t : CState}
    (h : runActs s acts = some t)
    (h1 : s.r1.pc = RPc.done) (h2 : s.r2.pc = RPc.done) :
    t.buffer = s.buffer ∧ t.r1.pc = RPc.done ∧ t.r2.pc = RPc.done := by
  induction acts generalizing s with
  | nil =>
    rw [runActs] at h
    obtain rfl := Option.some.inj h
    exact ⟨rfl, h1, h2⟩
  | cons a acts ih =>
    rw [runActs] at h
    split at h
    · exact absurd h (by simp)
    · next u hu =>
      obtain ⟨hb, hu1, hu2⟩ := step_frozen hu h1 h2
      obtain ⟨hb2, ht1, ht2⟩ := ih h hu1 hu2
      exact ⟨hb2.trans hb, ht1, ht2⟩

/-- Started watcher on a container whose streams are already at
end-of-stream: both readers about to read, supervisor looping, stop not
yet called. -/
def c2Init : CState :=
  { maxLogs := 1000
    running := true
    buffer := []
    r1 := { tag := "", input := [], pc := RPc.recv }
    r2 := { tag := "ERROR: ", input := [], pc := RPc.recv }
    sup := SupPc.looping
    procAlive := true
    stopPc := StopPc.idle }

/-- State after both readers hit end-of-stream and `stop` completed,
while the supervisor has not yet been scheduled. -/
def c2Final : CState :=
  { c2Init with
    running := false
    r1 := { tag := "", input := [], pc := RPc.done }
    r2 := { tag := "ERROR: ", input := [], pc := RPc.done }
    stopPc := StopPc.returned }

/-- C2 counterexample: a schedule in which `stop()` has returned while
the supervisor worker is still running — `stop` joins only the outer
thread (which joins the two readers); the `_watcher` supervisor handle
is never joined, so `stop` does not wait for all three workers. -/
theorem stop_returns_before_supervisor_exit :
    runActs c2Init [Act.r1, Act.r2, Act.stopFlag, Act.stopJoin] = some c2Final
    ∧ c2Final.stopPc = StopPc.returned
    ∧ c2Final.sup = SupPc.looping := by
  refine ⟨by decide, rfl, rfl⟩

/-- C2 amended: whenever `stop()` has returned, both reader workers
(and hence the outer thread that joins them) have exited; this is what
the join in `stop` guarantees. The supervisor is not joined and may
still be running at that point. -/
theorem stop_returned_implies_readers_exited (init : CState) (acts : List Act)
    (s : CState) (h0 : init.stopPc = StopPc.idle)
    (h : runActs init acts = some s) (hr : s.stopPc = StopPc.returned) :
    s.r1.pc = RPc.done ∧ s.r2.pc = RPc.done := by
  have hc : init.stopPc = StopPc.returned →
      init.r1.pc = RPc.done ∧ init.r2.pc = RPc.done := by
    intro hret
    rw [h0] at hret
    exact absurd hret (by decide)
  exact runActs_coherent h hc hr

/-- C2 amended witness: on the concrete schedule of
`stop_returns_before_supervisor_exit`, `stop` has returned and indeed
both readers have exited. -/
theorem stop_returned_implies_readers_exited_witness :
    c2Final.r1.pc = RPc.done ∧ c2Final.r2.pc = RPc.done :=
  stop_returned_implies_readers_exited c2Init
    [Act.r1, Act.r2, Act.stopFlag, Act.stopJoin] c2Final rfl (by decide) rfl

/-- Started watcher whose stdout stream holds one pending line. -/
def c3Init : CState :=
  { maxLogs := 1000
    running := true
    buffer := []
    r1 := { tag := "", input := [LineRead.good "late"], pc := RPc.recv }
    r2 := { tag := "ERROR: ", input := [], pc := RPc.recv }
    sup := SupPc.looping
    procAlive := true
    stopPc := StopPc.idle }

/-- State where the stdout reader has read "late" and passed its flag
check while `running` was still true, and `stop` has then set the flag:
the buffer is still empty but the append is pending. -/
def c3Mid : CState :=
  { c3Init with
    running := false
    stopPc := StopPc.flagged
    r1 := { tag := "", input := [], pc := RPc.append "late" } }

/-- State after the pending append lands, with the flag already false. -/
def c3Fin : CState :=
  { c3Mid with
    buffer := ["late"]
    r1 := { tag := "", input := [], pc := RPc.recv } }

/-- C3 counterexample: a reader that passed its flag check before
`stop` set `active = false` appends its line afterwards — at the moment
the flag became false the buffer was empty, yet a later read of the
buffer shows one more line. The flag check and the append are not
atomic. -/
theorem append_after_flag_false :
    runActs c3Init [Act.r1, Act.r1, Act.stopFlag] = some c3Mid
    ∧ c3Mid.running = false
    ∧ c3Mid.buffer = []
    ∧ runActs c3Init [Act.r1, Act.r1, Act.stopFlag, Act.r1] = some c3Fin
    ∧ c3Fin.buffer = ["late"] := by
  refine ⟨by decide, rfl, rfl, by decide, rfl⟩

/-- C3 amended: once `stop()` has returned (not merely set the flag),
the buffer never changes again under any further schedule — no worker
can append after the join completes. -/
theorem buffer_stable_after_stop_returns (init s t : CState)
    (acts1 acts2 : List Act)
    (h0 : init.stopPc = StopPc.idle)
    (h1 : runActs init acts1 = some s)
    (hs : s.stopPc = StopPc.returned)
    (h2 : runActs s acts2 = some t) :
    t.buffer = s.buffer := by
  have hc : init.stopPc = StopPc.returned →
      init.r1.pc = RPc.done ∧ init.r2.pc = RPc.done := by
    intro hret
    rw [h0] at hret
    exact absurd hret (by decide)
  obtain ⟨hd1, hd2⟩ := runActs_coherent h1 hc hs
  exact (runActs_frozen h2 hd1 hd2).1

/-- State where, after the late append of `c3Fin`, both readers hit
end-of-stream and `stop` completed its join. -/
def c3Done : CState :=
  { maxLogs := 1000
    running := false
    buffer := ["late"]
    r1 := { tag := "", input := [], pc := RPc.done }
    r2 := { tag := "ERROR: ", input := [], pc := RPc.done }
    sup := SupPc.looping
    procAlive := true
    stopPc := StopPc.returned }

/-- State after the supervisor finally observes the flag and kills the
subprocess — the buffer is untouched. -/
def c3After : CState :=
  { c3Done with procAlive := false, sup := SupPc.exited }

/-- C3 amended witness: on a concrete schedule, the buffer after
`stop()` returned stays exactly as it was when further steps (a
supervisor iteration) run. -/
theorem buffer_stable_after_stop_returns_witness :
    c3After.buffer = c3Done.buffer :=
  buffer_stable_after_stop_returns c3Init c3Done c3After
    [Act.r1, Act.r1, Act.stopFlag, Act.r1, Act.r1, Act.r2, Act.stopJoin]
    [Act.sup] rfl (by decide) rfl (by decide)

/-- Started watcher whose stdout stream yields a read error and then a
good line. -/
def c9Init : CState :=
  { maxLogs := 1000
    running := true
    buffer := []
    r1 := { tag := "", input := [LineRead.bad, LineRead.good "after"], pc := RPc.recv }
    r2 := { tag := "ERROR: ", input := [], pc := RPc.recv }
    sup := SupPc.looping
    procAlive := true
    stopPc := StopPc.idle }

/-- State after the stdout reader consumed the error and then the good
line: the line after the error has been appended and the reader is
still looping. -/
def c9Fin : CState :=
  { c9Init with
    buffer := ["after"]
    r1 := { tag := "", input := [], pc := RPc.recv } }

/-- C9 counterexample: a read error is not treated as end-of-stream —
`if let Ok(line) = line` silently skips the errored item and the loop
continues, so the worker appends lines read after the error instead of
exiting. -/
theorem reader_continues_after_error :
    runActs c9Init [Act.r1, Act.r1, Act.r1, Act.r1, Act.r1] = some c9Fin
    ∧ c9Fin.buffer = ["after"]
    ∧ c9Fin.r1.pc = RPc.recv := by
  refine ⟨by decide, rfl, rfl⟩

/-- C9 amended: on a read error the worker skips that item without
appending anything and without propagating the error, and continues
with the next read; the worker exits (quietly) on end-of-stream. -/
theorem reader_error_skip_and_eof_exit (maxLogs : Nat) (buffer : List String)
    (r : RState) :
    (r.pc = RPc.check LineRead.bad →
      readerStep maxLogs true buffer r = some ({ r with pc := RPc.recv }, buffer))
    ∧ (r.pc = RPc.recv → r.input = [] →
      readerStep maxLogs true buffer r = some ({ r with pc := RPc.done }, buffer)) := by
  constructor
  · intro hpc
    simp [readerStep, hpc]
  · intro hpc hin
    simp [readerStep, hpc, hin]

/-- C9 amended witness: a concrete reader at an errored item skips it
and keeps the buffer; a concrete reader at end-of-stream exits. -/
theorem reader_error_skip_and_eof_exit_witness :
    readerStep 5 true ["x"]
        { tag := "", input := [LineRead.good "y"], pc := RPc.check LineRead.bad }
      = some ({ tag := "", input := [LineRead.good "y"], pc := RPc.recv }, ["x"])
    ∧ readerStep 5 true ["x"] { tag := "", input := [], pc := RPc.recv }
      = some ({ tag := "", input := [], pc := RPc.done }, ["x"]) :=
  ⟨(reader_error_skip_and_eof_exit 5 ["x"]
      { tag := "", input := [LineRead.good "y"], pc := RPc.check LineRead.bad }).1 rfl,
   (reader_error_skip_and_eof_exit 5 ["x"]
      { tag := "", input := [], pc := RPc.recv }).2 rfl rfl⟩

end Dprs
